import Mathlib

/-!
Verification development for the Agent Backlink Network (ABN) repository.

The JavaScript sources are shallowly embedded as executable Lean
definitions:

* `src/config.js` — the related-industry table and `isRelatedIndustry`;
* `src/query.js` — the matching engine `findMatches` (scoring, filtering,
  stable descending sort; JavaScript `Array.prototype.sort` is stable, so
  it is modelled with `List.mergeSort`);
* `src/watch.js` — the expiry filter of `queryBids`;
* `src/verify.js` — `extractLinks` (a faithful executable model of the
  anchor-element regex, including its backtracking order), `verifyBacklink`,
  `fetchPage` (over an abstract redirect chain) and `batchVerify`;
* `src/abn.js` — the `createBid` validation;
* the negotiation state machine, whose implementation (`lib/state.js`) is
  not part of the sources at hand, is modelled from the specification.

External collaborators (the WHATWG URL resolver, the network, relays,
signing) are passed in as explicit parameters or abstract values.
-/

namespace ABN

/-! ## `src/config.js` — related industries -/

/-- The `RELATED_INDUSTRIES` object of `config.js`, as an association list. -/
def RELATED_INDUSTRIES : List (String × List String) :=
  [ ("plumbing", ["hvac", "electrical", "construction", "roofing", "home-services"])
  , ("hvac", ["plumbing", "electrical", "construction", "home-services"])
  , ("roofing", ["construction", "plumbing", "gutters", "siding"])
  , ("electrical", ["plumbing", "hvac", "construction", "solar"])
  , ("construction", ["roofing", "plumbing", "hvac", "electrical", "concrete"])
  , ("landscaping", ["tree-service", "lawn-care", "irrigation", "hardscaping"])
  , ("real-estate", ["mortgage", "home-inspection", "title", "moving"])
  , ("dental", ["orthodontics", "oral-surgery", "healthcare"])
  , ("legal", ["accounting", "financial", "insurance"])
  , ("restaurant", ["catering", "food-service", "hospitality"]) ]

/-- `RELATED_INDUSTRIES[a]` — JavaScript property lookup (missing key ↦ `none`). -/
def lookupRelated (a : String) : Option (List String) :=
  (RELATED_INDUSTRIES.find? (fun p => p.1 == a)).map (fun p => p.2)

/-- `isRelatedIndustry(a, b)` of `config.js`:
`RELATED_INDUSTRIES[a]?.includes(b) || RELATED_INDUSTRIES[b]?.includes(a)`. -/
def isRelatedIndustry (a b : String) : Bool :=
  ((lookupRelated a).map (fun l => l.contains b)).getD false
    || ((lookupRelated b).map (fun l => l.contains a)).getD false

/-! ## `src/query.js` — matching engine -/

/-- The site fields consumed by `findMatches` in `query.js`.  `da` is the
optional domain authority (`null`/absent ↦ `none`). -/
structure Site where
  url : String
  name : String
  city : String
  state : String
  industry : String
  da : Option Int
deriving Repr, DecidableEq

/-- JavaScript `site.da >= n`: `undefined >= n` and `null >= n` are both
false for the positive thresholds used (30 and 40). -/
def daGE (da : Option Int) (n : Int) : Bool :=
  match da with
  | some d => n ≤ d
  | none => false

/-- The score accumulation of `findMatches` (`query.js` lines 66–80),
in source order. -/
def scoreSite (yourSite site : Site) : Int :=
  let score : Int := 0
  let score := if yourSite.state == site.state then score + 30 else score
  let score := if yourSite.city != site.city then score + 20 else score
  let score := if yourSite.industry == site.industry then score + 25
    else if isRelatedIndustry yourSite.industry site.industry then score + 20
    else score
  let score := if daGE site.da 30 then score + 15 else score
  let score := if daGE site.da 40 then score + 10 else score
  score

/-- `{ ...site, matchScore: score }` — a candidate annotated with its score. -/
structure MatchScore where
  site : Site
  matchScore : Int
deriving Repr, DecidableEq

/-- The `.map` step of `findMatches`. -/
def annotate (yourSite site : Site) : MatchScore :=
  { site := site, matchScore := scoreSite yourSite site }

/-- The sort comparator `(a, b) => b.matchScore - a.matchScore` as the
"a may precede b" relation of a stable sort: `a` stays before `b` exactly
when the comparator is `≤ 0`, i.e. `b.matchScore ≤ a.matchScore`. -/
def scoreDesc (a b : MatchScore) : Bool :=
  b.matchScore ≤ a.matchScore

/-- The filter/map/filter pipeline of `findMatches` before sorting. -/
def keptMatches (yourSite : Site) (allSites : List Site) : List MatchScore :=
  ((allSites.filter (fun s => s.url != yourSite.url)).map (annotate yourSite)).filter
    (fun m => 30 < m.matchScore)

/-- `findMatches(yourSite, allSites)` of `query.js`: drop the requester's own
url, annotate with scores, drop scores ≤ 30, stable-sort descending by score
(JavaScript `Array.prototype.sort` is a stable sort). -/
def findMatches (yourSite : Site) (allSites : List Site) : List MatchScore :=
  (keptMatches yourSite allSites).mergeSort scoreDesc

/-! ## `src/watch.js` — `queryBids` expiry filter -/

/-- A relay event as consumed by `queryBids`: only the tag list matters for
the expiry filter.  A tag is a list of strings, e.g. `["expiry", "1700000000"]`. -/
structure NEvent where
  id : String
  tags : List (List String)
  content : String
deriving Repr, DecidableEq

/-- Characters matched by the JavaScript whitespace class (ASCII portion,
plus no-break space). -/
def isJsSpace (c : Char) : Bool :=
  c == ' ' || c == '\t' || c == '\n' || c == '\r' ||
    c == '\x0b' || c == '\x0c' || c == ' '

/-- Decimal digits to a natural number. -/
def digitsToNat (ds : List Char) : Nat :=
  ds.foldl (fun acc c => acc * 10 + (c.toNat - ('0').toNat)) 0

/-- JavaScript `parseInt(s)` restricted to the decimal forms produced and
consumed by this codebase (`String(expiry)` writes plain base-10 integers):
skip leading whitespace, optional sign, then the longest digit run; `none`
models `NaN` (no digits at all). -/
def parseIntJS (s : String) : Option Int :=
  let cs := s.data.dropWhile isJsSpace
  match cs with
  | '-' :: rest =>
    let ds := rest.takeWhile Char.isDigit
    if ds.isEmpty then none else some (-(digitsToNat ds : Int))
  | '+' :: rest =>
    let ds := rest.takeWhile Char.isDigit
    if ds.isEmpty then none else some (digitsToNat ds : Int)
  | _ =>
    let ds := cs.takeWhile Char.isDigit
    if ds.isEmpty then none else some (digitsToNat ds : Int)

/-- `e.tags.find(t => t[0] === 'expiry')` (`watch.js` line 96). -/
def findExpiryTag (e : NEvent) : Option (List String) :=
  e.tags.find? (fun t => t.head? == some ("expiry"))

/-- The predicate of the `events.filter` in `queryBids` (`watch.js`
lines 95–99): keep the event when it has no `expiry` tag, otherwise keep it
exactly when `parseInt(expiryTag[1]) > now` (a missing or non-numeric tag
value is `NaN`, and `NaN > now` is false). -/
def bidActiveFilter (now : Int) (e : NEvent) : Bool :=
  match findExpiryTag e with
  | none => true
  | some t =>
    match t[1]?.bind parseIntJS with
    | none => false
    | some n => now < n

/-- The pure core of `queryBids` (`watch.js` lines 92–99): filter the
queried events down to the active bids.  The relay query itself is an
external collaborator; its result is the `events` argument. -/
def queryBids (events : List NEvent) (now : Int) : List NEvent :=
  events.filter (bidActiveFilter now)

/-! ## `src/abn.js` — `createBid` validation -/

/-- The bid fields inspected by `ABN.createBid` (`abn.js` lines 102–113).
`none` models an absent (`undefined`) property. -/
structure Bid where
  type : Option String
  industry : Option String
  sats : Option Int
deriving Repr, DecidableEq

/-- JavaScript truthiness of an optional string: absent and `""` are falsy. -/
def strTruthy (o : Option String) : Bool :=
  match o with
  | none => false
  | some s => !s.isEmpty

/-- JavaScript falsiness of `bid.sats` for an optional integer: absent and
`0` are falsy; every nonzero integer (negative ones included) is truthy. -/
def satsFalsy (o : Option Int) : Bool :=
  match o with
  | none => true
  | some n => n == 0

/-- `ABN.createBid(bid)` (`abn.js` lines 102–113): the validation performed
before the bid is handed to the external publisher `postBid`.  `.ok bid` is
the bid forwarded for publishing; `.error` is the thrown message. -/
def createBid (bid : Bid) : Except String Bid :=
  if !(strTruthy bid.type) || !(["seeking", "offering"].contains (bid.type.getD (""))) then
    .error ("Bid must have type: \"seeking\" or \"offering\"")
  else if !(strTruthy bid.industry) then
    .error ("Bid must have an industry")
  else if satsFalsy bid.sats && bid.type == some ("seeking") then
    .error ("Seeking bids must have sats amount")
  else
    .ok bid

/-! ## `src/verify.js` — link extraction

`extractLinks` runs the regex
`/<a\s+([^>]*href\s*=\s*["']([^"']+)["'][^>]*)>([^<]*)<\/a>/gi`
over the HTML and, per match, the regex `/rel\s*=\s*["']([^"']+)["']/i`
over the captured attribute text.  The model below reproduces the
backtracking search of these two patterns on `List Char`.  Greedy
sub-matches whose continuation starts with a character excluded from the
class being repeated (`\s*` before `=`, `[^"']+` before a quote,
`[^>]*` before `>`, `[^<]*` before `<`) are maximal-munch without loss:
shortening them makes the following literal fail at a character of the
class, so the first backtracking success is the maximal one.  The one
quantifier whose backtracking is observable — the leading `[^>]*` of the
attribute group, which determines *which* `href=` inside the tag is
captured — is searched longest-prefix-first exactly as the JavaScript
engine does. -/

/-- ASCII lowercasing, as used by the regex `i` flag and by
`String.prototype.toLowerCase` on the ASCII range. -/
def lowerChar (c : Char) : Char :=
  if 'A' ≤ c && c ≤ 'Z' then Char.ofNat (c.toNat + 32) else c

/-- Match a literal case-insensitively; returns the remainder. -/
def matchLit : List Char → List Char → Option (List Char)
  | [], cs => some cs
  | _ :: _, [] => none
  | l :: ls, c :: cs => if lowerChar c == lowerChar l then matchLit ls cs else none

/-- The character class of the double quote and the single quote
(code point 39). -/
def isQuote (c : Char) : Bool :=
  c == '"' || c.toNat == 39

/-- Match `href\s*=\s*["']([^"']+)["']` at the head; returns the captured
href value and the remainder after the closing quote. -/
def matchHrefAt (cs : List Char) : Option (List Char × List Char) :=
  match matchLit ([ 'h', 'r', 'e', 'f' ]) cs with
  | none => none
  | some r1 =>
    match (r1.dropWhile isJsSpace) with
    | '=' :: r3 =>
      match (r3.dropWhile isJsSpace) with
      | q :: r5 =>
        if isQuote q then
          let v := r5.takeWhile (fun c => !(isQuote c))
          if v.isEmpty then none
          else
            match r5.drop v.length with
            | q2 :: r6 => if isQuote q2 then some (v, r6) else none
            | [] => none
        else none
      | [] => none
    | _ => none

/-- Match `[^>]*>` at the head; returns the remainder after `>`. -/
def matchTagEnd (cs : List Char) : Option (List Char) :=
  let s := cs.takeWhile (fun c => c != '>')
  match cs.drop s.length with
  | '>' :: r => some r
  | _ => none

/-- Match `([^<]*)<\/a>` at the head; returns the captured element body and
the remainder after `</a>`. -/
def matchClose (cs : List Char) : Option (List Char × List Char) :=
  let b := cs.takeWhile (fun c => c != '<')
  match cs.drop b.length with
  | '<' :: '/' :: c :: '>' :: r =>
    if lowerChar c == 'a' then some (b, r) else none
  | _ => none

/-- Backtracking search over the length of the leading `[^>]*` of the
attribute group, longest first (`k` counts down): at each prefix length try
`href…["']` then `[^>]*>` then `([^<]*)<\/a>`.  On success returns
`(attrs, href, body, rest)` where `attrs` is capture group 1 (up to just
before the `>`). -/
def attemptAt (cs : List Char) (k : Nat) : Option (List Char × List Char × List Char × List Char) :=
  match matchHrefAt (cs.drop k) with
  | none => none
  | some (v, r1) =>
    match matchTagEnd r1 with
    | none => none
    | some r2 =>
      match matchClose r2 with
      | none => none
      | some (b, rest) => some (cs.take (cs.length - r2.length - 1), v, b, rest)

/-- Run `attemptAt` for prefix lengths `k, k-1, …, 0`, first success wins. -/
def tryAttrSplit (cs : List Char) : Nat → Option (List Char × List Char × List Char × List Char)
  | 0 => attemptAt cs 0
  | k + 1 =>
    match attemptAt cs (k + 1) with
    | some res => some res
    | none => tryAttrSplit cs k

/-- Attempt the whole anchor pattern at the head of `cs`:
`<a\s+` then the attribute group, tag end, body, `<\/a>`. -/
def matchAnchorAt (cs : List Char) : Option (List Char × List Char × List Char × List Char) :=
  match cs with
  | '<' :: c :: r1 =>
    if lowerChar c == 'a' then
      let ws := r1.takeWhile isJsSpace
      if ws.isEmpty then none
      else
        let r2 := r1.drop ws.length
        tryAttrSplit r2 (r2.takeWhile (fun c => c != '>')).length
    else none
  | _ => none

/-- Match `rel\s*=\s*["']([^"']+)["']` at the head of the attribute text;
returns the captured value. -/
def matchRelAt (cs : List Char) : Option (List Char) :=
  match matchLit ([ 'r', 'e', 'l' ]) cs with
  | none => none
  | some r1 =>
    match (r1.dropWhile isJsSpace) with
    | '=' :: r3 =>
      match (r3.dropWhile isJsSpace) with
      | q :: r5 =>
        if isQuote q then
          let v := r5.takeWhile (fun c => !(isQuote c))
          if v.isEmpty then none
          else
            match r5.drop v.length with
            | q2 :: _ => if isQuote q2 then some v else none
            | [] => none
        else none
      | [] => none
    | _ => none

/-- Leftmost match of the `rel` pattern inside the attribute text
(`attrs.match(/rel\s*=\s*["']([^"']+)["']/i)`). -/
def findRel : List Char → Option (List Char)
  | [] => none
  | cs@(_ :: tail) => (matchRelAt cs).orElse (fun _ => findRel tail)

/-- One extracted link record (`verify.js` lines 66–73). -/
structure LinkRec where
  href : String
  anchor : String
  rel : String
  isDoFollow : Bool
  isSponsored : Bool
  isUGC : Bool
deriving Repr, DecidableEq

/-- JavaScript `String.prototype.trim`. -/
def jsTrim (s : List Char) : List Char :=
  ((s.dropWhile isJsSpace).reverse.dropWhile isJsSpace).reverse

/-- `needle` is a prefix of `hay` (character equality). -/
def prefixOf : List Char → List Char → Bool
  | [], _ => true
  | _ :: _, [] => false
  | n :: ns, h :: t => n == h && prefixOf ns t

/-- JavaScript `hay.includes(needle)` — substring containment. -/
def includesL : List Char → List Char → Bool
  | hay, needle =>
    match hay with
    | [] => needle.isEmpty
    | _ :: t => prefixOf needle hay || includesL t needle

/-- `hay.includes(needle)` on strings. -/
def jsIncludes (hay needle : String) : Bool :=
  includesL hay.data needle.data

/-- Build the link record pushed for one regex match (`verify.js`
lines 64–73).  Note the source quirk kept here: `isDoFollow`, `isSponsored`
and `isUGC` test the *raw* captured `rel` value, while the stored `rel`
field is lowercased. -/
def mkLink (attrs href body : List Char) : LinkRec :=
  let rel := (findRel attrs).getD []
  { href := String.mk (jsTrim href)
  , anchor := String.mk (jsTrim body)
  , rel := String.mk (rel.map lowerChar)
  , isDoFollow := !(includesL rel (("nofollow").data))
  , isSponsored := includesL rel (("sponsored").data)
  , isUGC := includesL rel (("ugc").data) }

/-- The `exec` scan loop: find matches left to right, resuming after each
match (`lastIndex`).  Every match consumes at least one character, so a
fuel of the input length suffices. -/
def extractLinksGo : Nat → List Char → List LinkRec
  | 0, _ => []
  | _, [] => []
  | fuel + 1, cs@(_ :: tail) =>
    match matchAnchorAt cs with
    | some (attrs, href, body, rest) => mkLink attrs href body :: extractLinksGo fuel rest
    | none => extractLinksGo fuel tail

/-- `extractLinks(html)` of `verify.js`. -/
def extractLinks (html : String) : List LinkRec :=
  extractLinksGo html.data.length html.data

/-! ## `src/verify.js` — backlink verification -/

/-- The recognized `options` of `verifyBacklink` (`{ anchor, dofollow,
exactUrl }`).  `none` models an absent property; note the source tests
`options.anchor` / `options.exactUrl` for truthiness, so `some ""` behaves
like an absent option. -/
structure VerifyOptions where
  dofollow : Bool := false
  anchor : Option String := none
  exactUrl : Option String := none
deriving Repr, DecidableEq

/-- The result object of `verifyBacklink`.  Fields the source omits on some
paths (`linksFound`, `bestMatch`, `error`) are `Option`s; the `checkedAt`
wall-clock stamp is outside the model. -/
structure VerificationResult where
  verified : Bool
  pageUrl : String
  targetDomain : String
  linksFound : Option (List LinkRec) := none
  bestMatch : Option LinkRec := none
  message : String
  error : Option String := none
deriving Repr, DecidableEq

/-- The domain filter of `verifyBacklink` (`verify.js` lines 92–99).
`resolve href base` stands for the external WHATWG `new URL(href, base)`:
`some host` is the parsed hostname, `none` a parse failure (the `catch`
branch).  In both branches a raw `href.includes(targetDomain)` also
qualifies the link. -/
def linkMatchesDomain (resolve : String → String → Option String)
    (pageUrl targetDomain : String) (link : LinkRec) : Bool :=
  match resolve link.href pageUrl with
  | some host => jsIncludes host targetDomain || jsIncludes link.href targetDomain
  | none => jsIncludes link.href targetDomain

/-- Lowercase a string (ASCII), as `String.prototype.toLowerCase` restricted
to the ASCII range. -/
def lowerStr (s : String) : String :=
  String.mk (s.data.map lowerChar)

/-- `verifyBacklink` after a successful fetch (`verify.js` lines 89–159),
operating on the already-extracted links.  Mirrors the source control flow:
`bestMatch` starts as `matchingLinks[0]` and is replaced by the first
dofollow link when `options.dofollow` is set; the anchor and exactUrl
constraints are existence checks over `matchingLinks` and do not touch
`bestMatch`. -/
def verifyFromLinks (resolve : String → String → Option String)
    (pageUrl targetDomain : String) (opts : VerifyOptions)
    (links : List LinkRec) : VerificationResult :=
  let matchingLinks := links.filter (linkMatchesDomain resolve pageUrl targetDomain)
  match matchingLinks with
  | [] =>
    { verified := false
    , pageUrl := pageUrl
    , targetDomain := targetDomain
    , message := ("No links found to target domain") }
  | m0 :: _ =>
    let chosen : Except VerificationResult LinkRec :=
      if opts.dofollow then
        match matchingLinks.filter (fun l => l.isDoFollow) with
        | [] =>
          .error
            { verified := false
            , pageUrl := pageUrl
            , targetDomain := targetDomain
            , linksFound := some matchingLinks
            , message := ("Links found but all are nofollow") }
        | d0 :: _ => .ok d0
      else .ok m0
    match chosen with
    | .error r => r
    | .ok bestMatch =>
      if strTruthy opts.anchor
          && !(matchingLinks.any (fun l =>
                jsIncludes (lowerStr l.anchor) (lowerStr (opts.anchor.getD (""))))) then
        { verified := false
        , pageUrl := pageUrl
        , targetDomain := targetDomain
        , linksFound := some matchingLinks
        , message :=
            ("Links found but anchor text \"") ++ opts.anchor.getD ("") ++ ("\" not matched") }
      else if strTruthy opts.exactUrl
          && !(matchingLinks.any (fun l => l.href == opts.exactUrl.getD (""))) then
        { verified := false
        , pageUrl := pageUrl
        , targetDomain := targetDomain
        , linksFound := some matchingLinks
        , message :=
            ("Links found but exact URL \"") ++ opts.exactUrl.getD ("") ++ ("\" not matched") }
      else
        { verified := true
        , pageUrl := pageUrl
        , targetDomain := targetDomain
        , linksFound := some matchingLinks
        , bestMatch := some bestMatch
        , message :=
            ("Found ") ++ toString matchingLinks.length ++ (" link(s) to ") ++ targetDomain }

/-- `verifyBacklink(pageUrl, targetDomain, options)` (`verify.js`
lines 86–171).  The network fetch is external: `fetched` is its outcome,
`.error e` being a rejected `fetchPage` promise caught by the `try`/`catch`
(the structured failure result carries the error message), `.ok html` a
resolved one. -/
def verifyBacklink (resolve : String → String → Option String)
    (fetched : Except String String)
    (pageUrl targetDomain : String) (opts : VerifyOptions) : VerificationResult :=
  match fetched with
  | .error e =>
    { verified := false
    , pageUrl := pageUrl
    , targetDomain := targetDomain
    , error := some e
    , message := ("Failed to fetch page: ") ++ e }
  | .ok html => verifyFromLinks resolve pageUrl targetDomain opts (extractLinks html)

/-- One step of the network's behaviour for a `fetchPage` request: a
response (status, optional `Location` header, body), a connection error, or
a timeout. -/
inductive FetchEvent where
  | response (status : Nat) (location : Option String) (body : String)
  | netError (msg : String)
  | timedOut
deriving Repr, DecidableEq

/-- `fetchPage` (`verify.js` lines 14–51) over an abstract chain of network
events, one per request in the redirect chain: 3xx with a `Location` header
recurses on the remaining chain; any other non-200 status rejects with
`HTTP <status>`; request errors reject with their message; a timeout rejects
with `Request timed out`.  `none` models a promise that never settles (the
chain ended on a redirect). -/
def fetchPage : List FetchEvent → Option (Except String String)
  | [] => none
  | .response s loc body :: rest =>
    if 300 ≤ s && s < 400 && loc.isSome then fetchPage rest
    else if s != 200 then some (.error (("HTTP ") ++ toString s))
    else some (.ok body)
  | .netError m :: _ => some (.error m)
  | .timedOut :: _ => some (.error ("Request timed out"))

/-- One element of the `checks` array of `batchVerify`. -/
structure Check where
  pageUrl : String
  targetDomain : String
  options : VerifyOptions
deriving Repr, DecidableEq

/-- `batchVerify(checks)` (`verify.js` lines 178–186): verify each check in
order, appending each result; `world` gives the fetch outcome per page URL
(each `verifyBacklink` call returns a structured result, never throws, so
the loop always runs to completion).  The fixed 500 ms inter-request delay
is timing, outside the model. -/
def batchVerify (resolve : String → String → Option String)
    (world : String → Except String String) (checks : List Check) : List VerificationResult :=
  checks.map (fun c => verifyBacklink resolve (world c.pageUrl) c.pageUrl c.targetDomain c.options)

/-! ## Negotiation state machine

Modelled from the spec: the deal lifecycle implementation (`lib/state.js`,
re-exported by `src/index.ts`) is not among the sources at hand — only its
type declarations (`LocalState`, the message interfaces) are.  The
definitions below follow §4.4 of the specification: states, the transition
table, and the rule that a message that is not a valid transition from the
current status is appended to `messageLog` without changing `status`. -/

/-- Modelled from the spec: the deal lifecycle states of §4.4. -/
inductive DealStatus where
  | INITIATED | PROPOSED | COUNTERED | ACCEPTED | PAID
  | PLACED | VERIFYING | COMPLETED | FAILED
deriving Repr, DecidableEq

/-- Modelled from the spec: the `NegotiationMessage` variants of §3, plus
the two non-message triggers of §4.4's table (payment sent, timeout). -/
inductive NegotiationMessage where
  | inquiry (regardingBidId text : String)
  | counter (sats : Int) (terms : String)
  | accept (paymentReference : String)
  | paymentSent
  | paid (proof linkDetails : String)
  | placed (liveUrl proofRef : String)
  | verdict (confirmed : Bool) (notes : String)
  | reject (reason : String)
  | timeout
deriving Repr, DecidableEq

/-- A status with no outgoing transitions other than none: `COMPLETED` and
`FAILED` are terminal (`FAILED` still re-enters `VERIFYING` on a new
`placed` message, the one explicit exception of §4.4). -/
def nonTerminal : DealStatus → Bool
  | .COMPLETED => false
  | .FAILED => false
  | _ => true

/-- Modelled from the spec: the transition table of §4.4.  `none` means the
message is not a valid transition from the given status. -/
def validTransition : DealStatus → NegotiationMessage → Option DealStatus
  | .INITIATED, .counter .. => some .PROPOSED
  | .PROPOSED, .counter .. => some .COUNTERED
  | .COUNTERED, .counter .. => some .COUNTERED
  | .PROPOSED, .accept .. => some .ACCEPTED
  | .COUNTERED, .accept .. => some .ACCEPTED
  | .ACCEPTED, .paymentSent => some .PAID
  | .PAID, .paid .. => some .PLACED
  | .PLACED, .placed .. => some .VERIFYING
  | .FAILED, .placed .. => some .VERIFYING
  | .VERIFYING, .verdict c _ => some (if c then .COMPLETED else .FAILED)
  | s, .reject .. => if nonTerminal s then some .FAILED else none
  | s, .timeout => if nonTerminal s then some .FAILED else none
  | _, _ => none

/-- Modelled from the spec: the per-deal aggregate of §3 (the fields the
idempotency claim is about). -/
structure Deal where
  status : DealStatus
  messageLog : List NegotiationMessage
deriving Repr, DecidableEq

/-- Modelled from the spec: apply one received or sent message to a deal —
always append it to the log; advance `status` only on a valid transition
(§4.4: out-of-turn or duplicate messages are logged but do not re-trigger a
transition). -/
def applyMessage (d : Deal) (m : NegotiationMessage) : Deal :=
  match validTransition d.status m with
  | some s' => { status := s', messageLog := d.messageLog ++ [m] }
  | none => { status := d.status, messageLog := d.messageLog ++ [m] }

/-! ## A concrete URL-hostname resolver for witnesses

The theorems about the Link Verifier quantify over the external URL
resolver; concrete witnesses and counterexamples instantiate it with this
small model of `new URL(href, base).hostname` for absolute `http(s)` hrefs
(the only hrefs the concrete inputs use, and for all of them the verdict is
the same under every resolver because the raw-substring fallback already
matches). -/

/-- Hostname of an absolute `http://` or `https://` URL: the text after the
scheme up to the first `/`, `:`, `?` or `#`, lowercased; `none` otherwise. -/
def hostnameModel (href : String) (_base : String) : Option String :=
  let after :=
    if prefixOf (("https://").data) href.data then some (href.data.drop 8)
    else if prefixOf (("http://").data) href.data then some (href.data.drop 7)
    else none
  match after with
  | none => none
  | some cs =>
    let host := cs.takeWhile (fun c => !(c == '/' || c == ':' || c == '?' || c == '#'))
    if host.isEmpty then none else some (String.mk (host.map lowerChar))

/-! ## Theorems -/

/-- The comparator relation is transitive. -/
theorem scoreDesc_trans (a b c : MatchScore) :
    scoreDesc a b → scoreDesc b c → scoreDesc a c := by
  simp only [scoreDesc, decide_eq_true_eq]
  omega

/-- The comparator relation is total. -/
theorem scoreDesc_total (a b : MatchScore) : scoreDesc a b || scoreDesc b a := by
  simp only [scoreDesc, Bool.or_eq_true, decide_eq_true_eq]
  omega

/-- C1.  For every candidate and requester `SiteProfile`, the matching score
is the sum of: 30 for equal states; 20 for different cities; 25 for identical
industries, else 20 for related industries, else 0; 15 for domain authority
≥ 30 plus a cumulative 10 for ≥ 40.  The `matchScore` annotation of
`findMatches` is exactly this score, and the requester
`{state: CA, city: LA, industry: plumbing, da: 0}` against the candidate
`{state: CA, city: SD, industry: plumbing, da: 35}` scores exactly 90. -/
theorem c1_score_formula :
    (∀ yourSite site : Site,
      scoreSite yourSite site =
        (if yourSite.state = site.state then 30 else 0)
          + (if yourSite.city ≠ site.city then 20 else 0)
          + (if yourSite.industry = site.industry then 25
             else if isRelatedIndustry yourSite.industry site.industry then 20 else 0)
          + (if daGE site.da 30 then 15 else 0)
          + (if daGE site.da 40 then 10 else 0))
    ∧ (∀ yourSite site : Site, (annotate yourSite site).matchScore = scoreSite yourSite site)
    ∧ scoreSite ⟨"https://requester.example", "R", "LA", "CA", "plumbing", some 0⟩
        ⟨"https://candidate.example", "C", "SD", "CA", "plumbing", some 35⟩ = 90 := by
  refine ⟨?_, fun _ _ => rfl, by decide⟩
  intro y s
  simp only [scoreSite, beq_iff_eq, bne_iff_ne, ne_eq]
  split <;> split <;> split <;> split <;> split <;> simp_all

/-- When verification over a link list succeeds, `bestMatch` is the head of
the domain-matching links — narrowed to dofollow links when `dofollow` is
set — regardless of the anchor and exactUrl constraints. -/
theorem verifyFromLinks_bestMatch (resolve : String → String → Option String)
    (pageUrl targetDomain : String) (opts : VerifyOptions) (links : List LinkRec)
    (hv : (verifyFromLinks resolve pageUrl targetDomain opts links).verified = true) :
    (verifyFromLinks resolve pageUrl targetDomain opts links).bestMatch
      = (if opts.dofollow then
           ((links.filter (linkMatchesDomain resolve pageUrl targetDomain)).filter
              (fun l => l.isDoFollow)).head?
         else (links.filter (linkMatchesDomain resolve pageUrl targetDomain)).head?) := by
  cases hm : links.filter (linkMatchesDomain resolve pageUrl targetDomain) with
  | nil =>
    simp only [verifyFromLinks, hm] at hv
    exact Bool.noConfusion hv
  | cons m0 rest =>
    simp only [verifyFromLinks, hm] at hv ⊢
    cases hd : opts.dofollow with
    | false =>
      simp only [hd, Bool.false_eq_true, if_false] at hv ⊢
      cases hanch : (strTruthy opts.anchor
          && !((m0 :: rest).any (fun l =>
              jsIncludes (lowerStr l.anchor) (lowerStr (opts.anchor.getD ("")))))) with
      | true =>
        rw [hanch] at hv
        simp at hv
      | false =>
        cases hex : (strTruthy opts.exactUrl
            && !((m0 :: rest).any (fun l => l.href == opts.exactUrl.getD ("")))) with
        | true =>
          rw [hanch, hex] at hv
          simp at hv
        | false => simp
    | true =>
      simp only [hd, if_true] at hv ⊢
      cases hdf : (m0 :: rest).filter (fun l => l.isDoFollow) with
      | nil =>
        rw [hdf] at hv
        simp at hv
      | cons d0 drest =>
        rw [hdf] at hv
        cases hanch : (strTruthy opts.anchor
            && !((m0 :: rest).any (fun l =>
                jsIncludes (lowerStr l.anchor) (lowerStr (opts.anchor.getD ("")))))) with
        | true =>
          rw [hanch] at hv
          simp at hv
        | false =>
          cases hex : (strTruthy opts.exactUrl
              && !((m0 :: rest).any (fun l => l.href == opts.exactUrl.getD ("")))) with
          | true =>
            rw [hanch, hex] at hv
            simp at hv
          | false => simp

/-- C2 (amended).  Whenever verification of a fetched page succeeds,
`bestMatch` is the first extracted link in document order passing the
target-domain filter — and, when `requireDofollow` is set, the first such
link that is dofollow.  The `requiredAnchorSubstring` and
`requiredExactHref` constraints are only existence checks over all
domain-matching links and do not narrow the choice of `bestMatch`, so the
chosen link is guaranteed to satisfy the domain filter and the dofollow
constraint, but not the anchor or exact-href constraint. -/
theorem c2_bestMatch_first_domain_match (resolve : String → String → Option String)
    (pageUrl targetDomain : String) (opts : VerifyOptions) (html : String)
    (hv : (verifyBacklink resolve (.ok html) pageUrl targetDomain opts).verified = true) :
    ((verifyBacklink resolve (.ok html) pageUrl targetDomain opts).bestMatch
      = (if opts.dofollow then
           (((extractLinks html).filter
               (linkMatchesDomain resolve pageUrl targetDomain)).filter
              (fun l => l.isDoFollow)).head?
         else ((extractLinks html).filter
             (linkMatchesDomain resolve pageUrl targetDomain)).head?))
      ∧ (∀ l, (verifyBacklink resolve (.ok html) pageUrl targetDomain opts).bestMatch = some l →
          linkMatchesDomain resolve pageUrl targetDomain l = true
            ∧ (opts.dofollow = true → l.isDoFollow = true)) := by
  have hvb : verifyBacklink resolve (.ok html) pageUrl targetDomain opts
      = verifyFromLinks resolve pageUrl targetDomain opts (extractLinks html) := rfl
  have hbm := verifyFromLinks_bestMatch resolve pageUrl targetDomain opts
    (extractLinks html) hv
  refine ⟨hbm, ?_⟩
  intro l hl
  rw [hvb, hbm] at hl
  cases hd : opts.dofollow with
  | false =>
    simp only [hd, Bool.false_eq_true, if_false] at hl
    have hmem : l ∈ (extractLinks html).filter
        (linkMatchesDomain resolve pageUrl targetDomain) :=
      List.mem_of_mem_head? hl
    exact ⟨(List.mem_filter.mp hmem).2, by simp⟩
  | true =>
    simp only [hd, if_true] at hl
    have hmem : l ∈ ((extractLinks html).filter
        (linkMatchesDomain resolve pageUrl targetDomain)).filter
          (fun l => l.isDoFollow) :=
      List.mem_of_mem_head? hl
    have h1 := List.mem_filter.mp hmem
    exact ⟨(List.mem_filter.mp h1.1).2, fun _ => h1.2⟩

/-- Witness for C2: a page with a single dofollow link to the target domain
verifies, and `bestMatch` is that first domain-matching link. -/
theorem c2_bestMatch_first_domain_match_witness :
    (verifyBacklink hostnameModel
        (.ok ("<a href=\"https://tgt.example/a\">go</a>")) ("https://page.example/")
        ("tgt.example") {}).bestMatch
      = ((extractLinks ("<a href=\"https://tgt.example/a\">go</a>")).filter
          (linkMatchesDomain hostnameModel ("https://page.example/") ("tgt.example"))).head? := by
  have h := (c2_bestMatch_first_domain_match hostnameModel ("https://page.example/")
    ("tgt.example") {} ("<a href=\"https://tgt.example/a\">go</a>") (by decide)).1
  simpa using h

/-- Counterexample to C2 as stated: with an active anchor constraint
`"special"`, verification succeeds because the *second* link's anchor
contains it, yet `bestMatch` is the *first* domain-matching link, whose
anchor does not — `bestMatch` is not the first link satisfying all active
constraints. -/
theorem c2_counterexample :
    (verifyBacklink hostnameModel
        (.ok ("<a href=\"https://tgt.example/one\">first link</a><a href=\"https://tgt.example/two\">special anchor</a>"))
        ("https://page.example/p") ("tgt.example") { anchor := some ("special") }).verified = true
      ∧ (verifyBacklink hostnameModel
          (.ok ("<a href=\"https://tgt.example/one\">first link</a><a href=\"https://tgt.example/two\">special anchor</a>"))
          ("https://page.example/p") ("tgt.example") { anchor := some ("special") }).bestMatch
        = some { href := ("https://tgt.example/one"), anchor := ("first link"), rel := ("")
               , isDoFollow := true, isSponsored := false, isUGC := false }
      ∧ strTruthy (some ("special")) = true
      ∧ jsIncludes (lowerStr ("first link")) (lowerStr ("special")) = false
      ∧ jsIncludes (lowerStr ("special anchor")) (lowerStr ("special")) = true := by
  refine ⟨by decide, by decide, by decide, by decide, by decide⟩

/-- C3.  `findMatches` (the spec's `rank`) returns exactly the candidates
whose url differs from the requester's and whose score exceeds 30, each
annotated with its integer score; the result is sorted descending by score;
it is a permutation of the filtered annotated input; and any pair already in
weakly descending order in the filtered input (ties in particular) keeps its
relative order — the stable-sort behaviour of the source's
`Array.prototype.sort`. -/
theorem c3_rank_filter_sort (yourSite : Site) (allSites : List Site) :
    (∀ m : MatchScore, m ∈ findMatches yourSite allSites ↔
      ∃ s, s ∈ allSites ∧ s.url ≠ yourSite.url
        ∧ m = annotate yourSite s ∧ 30 < m.matchScore)
      ∧ (findMatches yourSite allSites).Pairwise
          (fun a b => b.matchScore ≤ a.matchScore)
      ∧ List.Perm (findMatches yourSite allSites) (keptMatches yourSite allSites)
      ∧ (∀ a b : MatchScore, List.Sublist [a, b] (keptMatches yourSite allSites) →
          b.matchScore ≤ a.matchScore →
          List.Sublist [a, b] (findMatches yourSite allSites)) := by
  refine ⟨?_, ?_, List.mergeSort_perm _ _, ?_⟩
  · intro m
    simp only [findMatches, List.mem_mergeSort, keptMatches, List.mem_filter,
      List.mem_map, bne_iff_ne, ne_eq, decide_eq_true_eq]
    constructor
    · rintro ⟨⟨s, ⟨hs, hurl⟩, rfl⟩, hscore⟩
      exact ⟨s, hs, hurl, rfl, hscore⟩
    · rintro ⟨s, hs, hurl, rfl, hscore⟩
      exact ⟨⟨s, ⟨hs, hurl⟩, rfl⟩, hscore⟩
  · have h := List.sorted_mergeSort scoreDesc_trans scoreDesc_total
      (keptMatches yourSite allSites)
    exact h.imp (fun hab => by simpa [scoreDesc] using hab)
  · intro a b hsub hba
    exact List.sublist_mergeSort scoreDesc_trans scoreDesc_total
      (List.pairwise_pair.mpr (by simpa [scoreDesc] using hba)) hsub

/-- Witness for C3: with a requester in LA and two Californian candidates
(scores 100 and 85), the pair survives filtering and comes out in score
order. -/
theorem c3_rank_filter_sort_witness :
    List.Sublist
      [annotate ⟨("u0"), ("Y"), ("LA"), ("CA"), ("plumbing"), none⟩
         ⟨("u1"), ("A"), ("SD"), ("CA"), ("plumbing"), some 50⟩,
       annotate ⟨("u0"), ("Y"), ("LA"), ("CA"), ("plumbing"), none⟩
         ⟨("u2"), ("B"), ("SF"), ("CA"), ("hvac"), some 35⟩]
      (findMatches ⟨("u0"), ("Y"), ("LA"), ("CA"), ("plumbing"), none⟩
        [⟨("u1"), ("A"), ("SD"), ("CA"), ("plumbing"), some 50⟩,
         ⟨("u2"), ("B"), ("SF"), ("CA"), ("hvac"), some 35⟩]) :=
  (c3_rank_filter_sort _ _).2.2.2 _ _ (by decide) (by decide)

/-- C5 (modelled from the spec, §4.4).  A received or sent message that is
not a valid transition from the deal's current status — in particular a
second `accept` while already `ACCEPTED` — is appended to `messageLog` and
leaves `status` unchanged. -/
theorem c5_invalid_message_idempotent :
    (∀ (d : Deal) (m : NegotiationMessage), validTransition d.status m = none →
      (applyMessage d m).status = d.status
        ∧ (applyMessage d m).messageLog = d.messageLog ++ [m])
    ∧ (∀ ref, validTransition .ACCEPTED (.accept ref) = none) := by
  refine ⟨?_, fun _ => rfl⟩
  intro d m h
  simp [applyMessage, h]

/-- Witness for C5: a duplicate `accept` on an `ACCEPTED` deal is logged and
the status stays `ACCEPTED`. -/
theorem c5_invalid_message_idempotent_witness :
    (applyMessage ⟨.ACCEPTED, []⟩ (.accept ("lnbc1"))).status = DealStatus.ACCEPTED
      ∧ (applyMessage ⟨.ACCEPTED, []⟩ (.accept ("lnbc1"))).messageLog
          = [.accept ("lnbc1")] := by
  simpa using
    c5_invalid_message_idempotent.1 ⟨.ACCEPTED, []⟩ (.accept ("lnbc1")) (by rfl)

/-- C4.  `verifyBacklink` never throws past its boundary: a rejected fetch
(any error message `e`) is returned as a structured result with
`verified=false` and a message describing the fetch error; and every
non-2xx terminal response, every network error and every timeout makes
`fetchPage` reject with such a message (`HTTP <status>`, the error's own
message, `Request timed out`). -/
theorem c4_fetch_failures_structured :
    (∀ (resolve : String → String → Option String) (e pageUrl targetDomain : String)
        (opts : VerifyOptions),
      (verifyBacklink resolve (.error e) pageUrl targetDomain opts).verified = false
        ∧ (verifyBacklink resolve (.error e) pageUrl targetDomain opts).message
            = ("Failed to fetch page: ") ++ e
        ∧ (verifyBacklink resolve (.error e) pageUrl targetDomain opts).error = some e)
    ∧ (∀ (s : Nat) (loc : Option String) (body : String) (rest : List FetchEvent),
        ¬(200 ≤ s ∧ s < 300) → ¬(300 ≤ s ∧ s < 400 ∧ loc.isSome = true) →
        fetchPage (.response s loc body :: rest) = some (.error (("HTTP ") ++ toString s)))
    ∧ (∀ (m : String) (rest : List FetchEvent),
        fetchPage (.netError m :: rest) = some (.error m))
    ∧ (∀ rest : List FetchEvent,
        fetchPage (.timedOut :: rest) = some (.error ("Request timed out"))) := by
  refine ⟨fun _ _ _ _ _ => ⟨rfl, rfl, rfl⟩, ?_, fun _ _ => rfl, fun _ => rfl⟩
  intro s loc body rest h2xx hredir
  have hs : s ≠ 200 := by omega
  simp only [fetchPage, Bool.and_eq_true, decide_eq_true_eq, bne_iff_ne, ne_eq]
  rw [if_neg, if_pos hs]
  rintro ⟨⟨h3, h4⟩, hloc⟩
  exact hredir ⟨h3, h4, hloc⟩

/-- Witness for C4: a terminal 404 rejects with `HTTP 404`, and verifying
with that fetch outcome yields a structured unverified result. -/
theorem c4_fetch_failures_structured_witness :
    fetchPage [.response 404 none ("")] = some (.error ("HTTP 404"))
      ∧ (verifyBacklink hostnameModel (.error ("HTTP 404")) ("https://page.example/")
          ("tgt.example") {}).verified = false
      ∧ (verifyBacklink hostnameModel (.error ("HTTP 404")) ("https://page.example/")
          ("tgt.example") {}).message = ("Failed to fetch page: HTTP 404") := by
  refine ⟨?_, (c4_fetch_failures_structured.1 hostnameModel ("HTTP 404") _ _ {}).1, ?_⟩
  · have h := c4_fetch_failures_structured.2.1 404 none ("") [] (by omega) (by simp)
    simpa using h
  · have h := (c4_fetch_failures_structured.1 hostnameModel ("HTTP 404")
      ("https://page.example/") ("tgt.example") {}).2.1
    simpa using h

/-- JavaScript truthiness of an optional string, propositionally. -/
theorem strTruthy_iff (o : Option String) :
    strTruthy o = true ↔ (o ≠ none ∧ o ≠ some ("")) := by
  cases o with
  | none => simp [strTruthy]
  | some s =>
    simp only [strTruthy, Bool.not_eq_true', ne_eq, Option.some.injEq,
      reduceCtorEq, not_false_eq_true, true_and]
    rw [← String.isEmpty_iff]
    simp

/-- JavaScript falsiness of the `sats` field, propositionally. -/
theorem satsFalsy_iff (o : Option Int) :
    satsFalsy o = true ↔ (o = none ∨ o = some 0) := by
  cases o <;> simp [satsFalsy]

/-- The type check of `createBid`, propositionally. -/
theorem bidTypeValid_iff (o : Option String) :
    (strTruthy o && (["seeking", "offering"].contains (o.getD ("")))) = true
      ↔ (o = some ("seeking") ∨ o = some ("offering")) := by
  cases o with
  | none => simp [strTruthy]
  | some s =>
    simp only [strTruthy, Option.getD_some, Bool.and_eq_true, List.contains_cons,
      List.contains_nil, Bool.or_false, Bool.or_eq_true, beq_iff_eq,
      Option.some.injEq, Bool.not_eq_true', String.isEmpty_iff]
    constructor
    · rintro ⟨-, h | h⟩
      · exact Or.inl h
      · exact Or.inr h
    · rintro (rfl | rfl) <;> exact ⟨by rfl, by simp⟩

/-- The sats check of `createBid`, propositionally: it passes exactly when a
`seeking` type forces a truthy `sats`. -/
theorem satsCheck_iff (bid : Bid) :
    (satsFalsy bid.sats && bid.type == some ("seeking")) = false
      ↔ (bid.type = some ("seeking") → ¬(bid.sats = none ∨ bid.sats = some 0)) := by
  constructor
  · intro h hty hsats
    rw [← satsFalsy_iff] at hsats
    rw [hsats, hty] at h
    simp at h
  · intro h
    cases hsf : satsFalsy bid.sats with
    | false => simp
    | true =>
      simp only [Bool.true_and]
      rw [beq_eq_false_iff_ne]
      intro hty
      exact h hty ((satsFalsy_iff _).mp hsf)

/-- `createBid` succeeds exactly when its three boolean checks pass. -/
theorem createBid_ok_iff (bid : Bid) :
    createBid bid = .ok bid ↔
      ((strTruthy bid.type && (["seeking", "offering"].contains (bid.type.getD ("")))) = true
        ∧ strTruthy bid.industry = true
        ∧ (satsFalsy bid.sats && bid.type == some ("seeking")) = false) := by
  unfold createBid
  cases hx : strTruthy bid.type
    <;> cases hy : (["seeking", "offering"].contains (bid.type.getD ("")))
    <;> cases hB : strTruthy bid.industry
    <;> cases hC : (satsFalsy bid.sats && bid.type == some ("seeking"))
    <;> simp [hx, hy, hB, hC]

/-- A successful `createBid` returns the bid it was given. -/
theorem createBid_ok_eq (bid b : Bid) (h : createBid bid = .ok b) : b = bid := by
  unfold createBid at h
  split at h
  · cases h
  · split at h
    · cases h
    · split at h
      · cases h
      · cases h
        rfl

/-- C6 (amended).  `createBid` rejects, before any publish attempt, every
bid whose type is not `seeking` or `offering`, every bid lacking an industry
(absent or empty), and every `seeking` bid whose `sats` is absent or zero
(JavaScript falsiness) — a nonzero `sats`, negative values included, passes
the check; every bid passing all three checks is forwarded for publishing
unchanged, and every other bid yields a thrown error message. -/
theorem c6_createBid_validation (bid : Bid) :
    (createBid bid = .ok bid ↔
      ((bid.type = some ("seeking") ∨ bid.type = some ("offering"))
        ∧ (bid.industry ≠ none ∧ bid.industry ≠ some (""))
        ∧ (bid.type = some ("seeking") → ¬(bid.sats = none ∨ bid.sats = some 0))))
      ∧ (∀ b : Bid, createBid bid = .ok b → b = bid)
      ∧ (createBid bid ≠ .ok bid → ∃ msg, createBid bid = .error msg) := by
  refine ⟨?_, createBid_ok_eq bid, ?_⟩
  · rw [createBid_ok_iff, bidTypeValid_iff, strTruthy_iff, satsCheck_iff]
  · intro h
    cases hc : createBid bid with
    | error m => exact ⟨m, rfl⟩
    | ok b =>
      have hb : b = bid := createBid_ok_eq bid b hc
      rw [hb] at hc
      exact absurd hc h

/-- Counterexample to C6 as stated: a `seeking` bid offering `sats = -1` —
not a positive offer — passes validation and is forwarded for publishing
(JavaScript `!bid.sats` is false for every nonzero number). -/
theorem c6_counterexample :
    createBid { type := some ("seeking"), industry := some ("plumbing"), sats := some (-1) }
        = .ok { type := some ("seeking"), industry := some ("plumbing"), sats := some (-1) }
      ∧ ¬(0 < (-1 : Int)) :=
  ⟨rfl, by omega⟩

/-- Witness for C6: a well-formed offering bid is accepted, and a type-less
bid is rejected with an error message. -/
theorem c6_createBid_validation_witness :
    createBid { type := some ("offering"), industry := some ("roofing"), sats := none }
        = .ok { type := some ("offering"), industry := some ("roofing"), sats := none }
      ∧ ∃ msg, createBid { type := none, industry := some ("roofing"), sats := none }
          = .error msg := by
  constructor
  · exact ((c6_createBid_validation _).1).mpr
      ⟨Or.inr rfl, ⟨by simp, by simp⟩, by intro h; exact absurd h (by decide)⟩
  · exact (c6_createBid_validation _).2.2
      (by intro h; simp [createBid, strTruthy] at h)


/-- C7.  For every bid event with a numeric expiry tag, the event is kept by
`queryBids` exactly when `now < expiry` (the source tests
`parseInt(expiryTag[1]) > now`), and the result is a sublist of the input —
the filter never deletes events from the log. -/
theorem c7_expiry_filter (events : List NEvent) (e : NEvent) (now : Int)
    (t : List String) (n : Int)
    (ht : findExpiryTag e = some t) (hn : t[1]?.bind parseIntJS = some n) :
    (e ∈ queryBids events now ↔ e ∈ events ∧ now < n)
      ∧ List.Sublist (queryBids events now) events := by
  refine ⟨?_, List.filter_sublist _⟩
  simp [queryBids, List.mem_filter, bidActiveFilter, ht, hn]

/-- Witness for C7: an event with expiry 100 is kept at time 42 and dropped
at time 100. -/
theorem c7_expiry_filter_witness :
    (NEvent.mk ("e1") ([[("expiry"), ("100")]]) ("")
        ∈ queryBids [NEvent.mk ("e1") ([[("expiry"), ("100")]]) ("")] 42)
      ∧ ¬(NEvent.mk ("e1") ([[("expiry"), ("100")]]) ("")
        ∈ queryBids [NEvent.mk ("e1") ([[("expiry"), ("100")]]) ("")] 100) := by
  constructor
  · exact ((c7_expiry_filter _ _ 42 _ 100 (by rfl) (by rfl)).1).mpr
      ⟨by simp, by omega⟩
  · intro h
    have := ((c7_expiry_filter _ _ 100 _ 100 (by rfl) (by rfl)).1).mp h
    omega

/-- C8.  `batchVerify` maps each check, in input order, to the verification
result of that check: around any one check the batch splits into the results
for the checks before, that check's own result, and the results for the
checks after — so a check whose verification fails (a structured
`verified=false` result, fetch errors included) never prevents the remaining
checks from being processed, and there is exactly one result per input. -/
theorem c8_batchVerify_order (resolve : String → String → Option String)
    (world : String → Except String String)
    (pre : List Check) (c : Check) (post : List Check) :
    (batchVerify resolve world (pre ++ c :: post)).length = (pre ++ c :: post).length
      ∧ batchVerify resolve world (pre ++ c :: post)
          = batchVerify resolve world pre
            ++ verifyBacklink resolve (world c.pageUrl) c.pageUrl c.targetDomain c.options
              :: batchVerify resolve world post := by
  simp [batchVerify]

/-- A body captured by `matchClose` never contains `<`: it is a
`takeWhile` of the class `[^<]`. -/
theorem matchClose_no_lt {cs b r : List Char} (h : matchClose cs = some (b, r)) :
    ∀ c ∈ b, (c != '<') = true := by
  simp only [matchClose] at h
  split at h
  · split at h
    · simp only [Option.some.injEq, Prod.mk.injEq] at h
      obtain ⟨rfl, rfl⟩ := h
      intro c hc
      exact List.mem_takeWhile_imp (p := fun c => c != '<') hc
    · cases h
  · cases h

/-- The body returned by `attemptAt` never contains `<`. -/
theorem attemptAt_no_lt {cs : List Char} {k : Nat} {a hr b r : List Char}
    (hm : attemptAt cs k = some (a, hr, b, r)) : ∀ c ∈ b, (c != '<') = true := by
  simp only [attemptAt] at hm
  split at hm
  · cases hm
  · split at hm
    · cases hm
    · split at hm
      · cases hm
      · simp only [Option.some.injEq, Prod.mk.injEq] at hm
        obtain ⟨-, -, rfl, -⟩ := hm
        next hclose => exact matchClose_no_lt hclose

/-- The body returned by `tryAttrSplit` never contains `<`. -/
theorem tryAttrSplit_no_lt {cs : List Char} {a hr b r : List Char} (k : Nat)
    (hm : tryAttrSplit cs k = some (a, hr, b, r)) : ∀ c ∈ b, (c != '<') = true := by
  induction k with
  | zero =>
    simp only [tryAttrSplit] at hm
    exact attemptAt_no_lt hm
  | succ n ih =>
    simp only [tryAttrSplit] at hm
    split at hm
    · next res heq =>
      simp only [Option.some.injEq] at hm
      subst hm
      exact attemptAt_no_lt heq
    · exact ih hm

/-- The body returned by `matchAnchorAt` never contains `<`. -/
theorem matchAnchorAt_no_lt {cs a hr b r : List Char}
    (hm : matchAnchorAt cs = some (a, hr, b, r)) : ∀ c ∈ b, (c != '<') = true := by
  simp only [matchAnchorAt] at hm
  split at hm
  · split at hm
    · split at hm
      · cases hm
      · exact tryAttrSplit_no_lt _ hm
    · cases hm
  · cases hm

/-- Trimming only removes characters. -/
theorem mem_jsTrim {c : Char} {s : List Char} (h : c ∈ jsTrim s) : c ∈ s := by
  simp only [jsTrim] at h
  have h1 := (List.dropWhile_sublist _).subset (List.mem_reverse.mp h)
  exact (List.dropWhile_sublist _).subset (List.mem_reverse.mp h1)

/-- No anchor text produced by the `exec` scan loop contains `<`. -/
theorem extractLinksGo_anchor_no_lt (fuel : Nat) :
    ∀ (cs : List Char) (l : LinkRec), l ∈ extractLinksGo fuel cs →
      ∀ c ∈ l.anchor.data, (c != '<') = true := by
  induction fuel with
  | zero =>
    intro cs l hl
    simp [extractLinksGo] at hl
  | succ n ih =>
    intro cs l hl
    cases cs with
    | nil => simp [extractLinksGo] at hl
    | cons ch tail =>
      simp only [extractLinksGo] at hl
      split at hl
      · next attrs href body rest hmatch =>
        rcases List.mem_cons.mp hl with rfl | hl'
        · intro c hc
          have hcb : c ∈ jsTrim body := hc
          exact matchAnchorAt_no_lt hmatch c (mem_jsTrim hcb)
        · exact ih _ _ hl'
      · exact ih _ _ hl

/-- C9.  `extractLinks` yields link records only for anchors whose element
body is free of `<` (the regex body class is `[^<]*`): every extracted
anchor text contains no `<`; the concrete page whose only link to the
target domain wraps nested markup (`<a href=…><b>text</b></a>`) yields no
link records at all, and verifying it returns `verified=false` with the
message `No links found to target domain`. -/
theorem c9_nested_markup_extraction :
    (∀ (html : String) (l : LinkRec), l ∈ extractLinks html →
      ∀ c ∈ l.anchor.data, c ≠ '<')
      ∧ extractLinks ("<p>see <a href=\"https://tgt.example/x\"><b>text</b></a> end</p>") = []
      ∧ verifyBacklink hostnameModel
          (.ok ("<p>see <a href=\"https://tgt.example/x\"><b>text</b></a> end</p>"))
          ("https://page.example/") ("tgt.example") {}
        = { verified := false, pageUrl := ("https://page.example/")
          , targetDomain := ("tgt.example")
          , message := ("No links found to target domain") } := by
  refine ⟨?_, by decide, by decide⟩
  intro html l hl c hc
  have h := extractLinksGo_anchor_no_lt _ _ l hl c hc
  simpa using h

/-- Witness for C9: a plain-text anchor is extracted and its characters are
not `<`. -/
theorem c9_nested_markup_extraction_witness : ('g' : Char) ≠ '<' :=
  c9_nested_markup_extraction.1 ("<a href=\"https://a.example/\">go</a>")
    { href := ("https://a.example/"), anchor := ("go"), rel := ("")
    , isDoFollow := true, isSponsored := false, isUGC := false }
    (by decide) 'g' (by decide)

/-- C10.  A bid event is kept by the expiry filter at every query time
exactly when it carries no `expiry` tag; such an event is always included
in the query results whenever it is among the queried events. -/
theorem c10_no_expiry_always_active (e : NEvent) :
    ((∀ now : Int, bidActiveFilter now e = true) ↔ findExpiryTag e = none)
      ∧ (findExpiryTag e = none →
          ∀ (events : List NEvent) (now : Int), e ∈ events → e ∈ queryBids events now) := by
  constructor
  · constructor
    · intro h
      cases ht : findExpiryTag e with
      | none => rfl
      | some t =>
        exfalso
        cases hv : t[1]?.bind parseIntJS with
        | none =>
          have := h 0
          simp [bidActiveFilter, ht, hv] at this
        | some n =>
          have := h n
          simp [bidActiveFilter, ht, hv] at this
    · intro h now
      simp [bidActiveFilter, h]
  · intro h events now he
    simp [queryBids, List.mem_filter, he, bidActiveFilter, h]

/-- Witness for C10: an event without an expiry tag is included at an
arbitrary late query time. -/
theorem c10_no_expiry_always_active_witness :
    NEvent.mk ("e2") ([[("t"), ("abn-bid")]]) ("")
      ∈ queryBids [NEvent.mk ("e2") ([[("t"), ("abn-bid")]]) ("")] 99999999999 :=
  (c10_no_expiry_always_active _).2 (by rfl) _ 99999999999 (by simp)

end ABN
